import Mathlib

/-!
Verification of the risk scoring and aggregation engine of the
Fact-Safe-Elder repository, a shallow embedding of
`backend/app/services/detection.py` (class `DetectionEngine`) and of the
weighted-ensemble voter `_weighted_voting` of
`backend/app/services/ai_models.py`.

Python floats are modelled as rationals (`ℚ`); Python `dict` (which keeps
insertion order) is modelled as an association list `List (K × V)` with
in-place update on existing keys and append on fresh keys; the regular
expressions used by the detectors are modelled by equivalent explicit
character-list scanners (Python's `\d` and `\w` and `\s` are modelled at
ASCII + CJK precision, which is exact on the engine's character whitelist).
-/

namespace FactSafe

/-- The three risk levels of `app.models.detection.RiskLevel`
(`SAFE`, `WARNING`, `DANGER`). -/
inductive RiskLevel where
  | safe
  | warning
  | danger
deriving DecidableEq, Repr

/-- The detection result record of `app.models.detection.DetectionResult`
(scores as rationals, the per-call UUID as an opaque string). -/
structure DetectionResult where
  level : RiskLevel
  score : ℚ
  confidence : ℚ
  message : String
  reasons : List String
  suggestions : List String
  categories : List String
  keywords : List String
  detection_id : String
deriving DecidableEq, Repr

/-- Modelled from the spec: the repository's `app/models/detection.py`
(the `DetectionResult` pydantic model that validates every construction)
is not under `src/`, only its importers are.  Per the spec, "`reasons` is
never empty (falls back to an explicit no-risk-found reason)": "If no
detector produced any reason, set `reasons = ["no risk factors found"]`
and `suggestions = ["content appears safe"]`."  Every construction site of
`DetectionResult` in the source goes through this constructor. -/
def mkDetectionResult (level : RiskLevel) (score confidence : ℚ) (message : String)
    (reasons suggestions categories keywords : List String)
    (detection_id : String) : DetectionResult :=
  if reasons = [] then
    ⟨level, score, confidence, message, ["no risk factors found"],
      ["content appears safe"], categories, keywords, detection_id⟩
  else
    ⟨level, score, confidence, message, reasons, suggestions, categories,
      keywords, detection_id⟩

@[simp] theorem mkDetectionResult_level (l s c m r sg cs ks id) :
    (mkDetectionResult l s c m r sg cs ks id).level = l := by
  unfold mkDetectionResult; split <;> rfl

@[simp] theorem mkDetectionResult_score (l s c m r sg cs ks id) :
    (mkDetectionResult l s c m r sg cs ks id).score = s := by
  unfold mkDetectionResult; split <;> rfl

@[simp] theorem mkDetectionResult_confidence (l s c m r sg cs ks id) :
    (mkDetectionResult l s c m r sg cs ks id).confidence = c := by
  unfold mkDetectionResult; split <;> rfl

@[simp] theorem mkDetectionResult_categories (l s c m r sg cs ks id) :
    (mkDetectionResult l s c m r sg cs ks id).categories = cs := by
  unfold mkDetectionResult; split <;> rfl

theorem mkDetectionResult_reasons_len (l s c m r sg cs ks id) :
    0 < (mkDetectionResult l s c m r sg cs ks id).reasons.length := by
  unfold mkDetectionResult
  split
  · simp
  · rename_i h
    cases r with
    | nil => exact absurd rfl h
    | cons a t => simp

/-! ## Text utilities

Python substring containment `kw in text` and the regular expressions of
the detectors, over `List Char`. -/

/-- Python's `kw in text` for strings: `needle` occurs as a contiguous
substring of `haystack`. -/
def infixHit : List Char → List Char → Bool
  | needle, [] => needle.isEmpty
  | needle, c :: rest => needle.isPrefixOf (c :: rest) || infixHit needle rest

/-- Python's `kw in text` on `String`s (argument order: text first, then keyword). -/
def strContains (text kw : String) : Bool :=
  infixHit kw.toList text.toList

/-- Python's built-in `min` on two numbers: the first argument when it is
less than or equal to the second, else the second.  (Stated as an `if` so
that it evaluates; `pymin_eq_min` identifies it with `min` on `ℚ`.) -/
def pymin (a b : ℚ) : ℚ :=
  if a ≤ b then a else b

theorem pymin_eq_min (a b : ℚ) : pymin a b = min a b := by
  rw [min_def, pymin]

/-- Python `\s` (whitespace), at ASCII precision. -/
def isPySpace (c : Char) : Bool :=
  c = ' ' || c = '\t' || c = '\n' || c = '\r' || c = '\x0b' || c = '\x0c'

/-- Python `\w` (word character), modelled as ASCII alphanumeric or
underscore; CJK ideographs (also `\w` in Python) are covered separately by
the explicit CJK range wherever `\w` is used. -/
def isWordChar (c : Char) : Bool :=
  c.isAlphanum || c = '_'

/-- The CJK unified ideograph range `一-鿿` of the whitelist. -/
def isCJK (c : Char) : Bool :=
  0x4e00 ≤ c.toNat && c.toNat ≤ 0x9fff

/-- The explicit punctuation kept by `_preprocess_text`'s whitelist. -/
def keptPunct : List Char :=
  ['.', ',', '!', '?', ';', ':', '(', ')', '（', '）', '！', '？', '；',
   '：', '、', '。', '，']

/-- One character is kept by `re.sub(r'[^一-鿿\w\s.,!?;:()（）！？；：、。，]', '', text)`. -/
def keptChar (c : Char) : Bool :=
  isCJK c || isWordChar c || isPySpace c || keptPunct.contains c

/-- The substitution `re.sub(r'\s+', ' ', text)`: collapse every maximal whitespace run to a
single space.  The flag records whether the previous character was part of
a whitespace run. -/
def collapseWs : Bool → List Char → List Char
  | _, [] => []
  | prevSpace, c :: rest =>
    if isPySpace c then
      if prevSpace then collapseWs true rest
      else ' ' :: collapseWs true rest
    else c :: collapseWs false rest

/-- Python `str.strip()` after whitespace collapsing: drop leading and
trailing spaces (after `collapseWs` the only whitespace left is `' '`). -/
def stripEnds (cs : List Char) : List Char :=
  ((cs.dropWhile isPySpace).reverse.dropWhile isPySpace).reverse

/-- The engine's `_preprocess_text` (detection.py lines 317-328):
lower-case, collapse whitespace and strip, then drop every character
outside the whitelist. -/
def preprocessText (text : String) : String :=
  let lowered := text.toList.map Char.toLower
  let ws := stripEnds (collapseWs false lowered)
  ⟨ws.filter keptChar⟩

/-! ## Keyword database (`_load_keywords`, detection.py lines 52-125) -/

/-- The four keyword categories of `_load_keywords`, in the source's dict
insertion order, with the exact keyword lists. -/
def keywordsDb : List (String × List String) :=
  [("financial_fraud",
    ["保证收益", "无风险投资", "月入万元", "稳赚不赔", "高收益",
     "内幕消息", "股票推荐", "期货黄金", "虚拟货币", "数字货币",
     "挖矿", "ico", "区块链投资", "外汇交易", "原油投资",
     "贵金属投资", "邮币卡", "艺术品投资", "红酒投资",
     "传销", "微商", "代理", "加盟费", "入会费", "会员费",
     "拉人头", "层级分销", "金字塔", "多层次营销",
     "无抵押贷款", "秒批", "黑户贷款", "征信修复", "代办信用卡",
     "花呗提现", "借呗套现", "网贷", "裸贷", "高利贷",
     "信用卡套现", "pos机", "刷单", "代还信用卡",
     "限时优惠", "马上行动", "机会难得", "不要错过", "立即抢购",
     "仅限今天", "名额有限", "先到先得", "绝密消息"]),
   ("medical_fraud",
    ["包治百病", "神奇疗效", "祖传秘方", "一次根治", "永不复发",
     "药到病除", "立竿见影", "奇迹般康复", "绝对有效",
     "100%治愈", "三天见效", "一周康复",
     "医院不告诉你", "医生都在用", "专家推荐", "权威认证",
     "国际领先", "诺贝尔奖", "美国进口", "德国技术",
     "中科院研发", "军工技术", "航天科技",
     "癌症克星", "延年益寿", "排毒养颜", "减肥神器",
     "壮阳补肾", "丰胸美白", "抗衰老", "增高神器",
     "明目护眼", "护肝养胃", "补脑益智", "强身健体",
     "保健品", "营养品", "特效药", "偏方", "土方",
     "民间验方", "宫廷秘方", "古方", "中药秘方",
     "三无产品", "假药", "违禁药", "激素药"]),
   ("general_fraud",
    ["加微信", "联系qq", "私信我", "留电话", "扫码进群",
     "微信号", "qq群", "电话咨询", "在线客服", "联系客服",
     "转账", "汇款", "支付宝", "微信支付", "银行卡", "打款",
     "预付款", "定金", "押金", "保证金", "手续费",
     "中奖", "恭喜获奖", "幸运用户", "免费领取", "0元购",
     "秒杀", "特价", "清仓", "亏本甩卖", "跳楼价",
     "赶紧", "立即", "马上", "快速", "紧急", "限时",
     "截止今晚", "最后一天", "错过后悔", "机不可失"]),
   ("emotional_manipulation",
    ["可怜", "救救", "帮帮", "求助", "捐款", "爱心",
     "善心", "做好事", "积德", "功德", "报应", "因果",
     "老人", "孩子", "病人", "残疾", "困难", "贫困"])]

/-- The counter `_count_keyword_matches` (lines 330-336): the number of keywords of the
list that occur in the text. -/
def countKeywordMatches (text : String) (kws : List String) : Nat :=
  kws.countP (fun kw => strContains text kw)

/-! ## Regex scanners for the pattern detectors -/

/-- A `!` (half- or full-width), for `[!！]{2,}`. -/
def isBang (c : Char) : Bool := c = '!' || c = '！'

/-- A `?` (half- or full-width), for `[?？]{2,}`. -/
def isQm (c : Char) : Bool := c = '?' || c = '？'

/-- The search `re.search(r'[!！]{2,}|[?？]{2,}', text)`: two adjacent exclamation
marks or two adjacent question marks somewhere in the text. -/
def hasRepeatedPunct : List Char → Bool
  | c1 :: c2 :: rest =>
      (isBang c1 && isBang c2) || (isQm c1 && isQm c2)
        || hasRepeatedPunct (c2 :: rest)
  | _ => false

/-- A digit immediately followed by the character `t` occurs; this is
exactly `re.search(r'\d+' ++ t)` for a literal tail character `t`. -/
def hasDigitThen (t : Char) : List Char → Bool
  | c1 :: c2 :: rest =>
      (c1.isDigit && c2 = t) || hasDigitThen t (c2 :: rest)
  | _ => false

/-- The pattern `pat` occurs followed (with no gap) by at least one digit;
this is `re.search(pat ++ r'\d+')` for a literal `pat`. -/
def hasPatThenDigit (pat : List Char) : List Char → Bool
  | [] => false
  | c :: rest =>
      (pat.isPrefixOf (c :: rest)
          && ((c :: rest).drop pat.length).head?.any Char.isDigit)
        || hasPatThenDigit pat rest

/-- The pattern `pat` occurs, followed by optional whitespace and then one
character satisfying `p`; this is `re.search(pat ++ r'\s*X')` where `X` is
the character class decided by `p`. -/
def hasPatWsPred (pat : List Char) (p : Char → Bool) : List Char → Bool
  | [] => false
  | c :: rest =>
      (pat.isPrefixOf (c :: rest)
          && (((c :: rest).drop pat.length).dropWhile isPySpace).head?.any p)
        || hasPatWsPred pat p rest

/-- A run of at least `n` consecutive digits starts at some position; this
is `re.search(r'\d{n}')`. -/
def hasDigitRun (n : Nat) : List Char → Bool
  | [] => decide (n ≤ 0)
  | c :: rest =>
      (decide (n ≤ (c :: rest).length)
          && ((c :: rest).take n).all Char.isDigit)
        || hasDigitRun n rest

/-- The numeric value of a digit string (`int(match)` on a `findall`
group). -/
def natOfDigits (cs : List Char) : Nat :=
  cs.foldl (fun n c => 10 * n + (c.toNat - '0'.toNat)) 0

/-- The matches of `re.findall(r'(\d+)%', text)`, already converted with `int`: the values
of the maximal digit runs that are immediately followed by `%`.  `pending`
is the digit run read so far (most significant digit first). -/
def percentNumbers (pending : List Char) : List Char → List Nat
  | [] => []
  | c :: rest =>
      if c.isDigit then percentNumbers (pending ++ [c]) rest
      else if c = '%' && !pending.isEmpty then
        natOfDigits pending :: percentNumbers [] rest
      else percentNumbers [] rest

/-! ## The five signal detectors -/

/-- The detector `_detect_language_patterns` (lines 338-356). -/
def detectLanguagePatterns (text : String) : ℚ :=
  let cs := text.toList
  let s1 : ℚ := if hasRepeatedPunct cs then 0.1 else 0
  let excessive := ["神奇", "绝对", "完美", "顶级", "极品", "史上最", "世界级"]
  let s2 : ℚ := excessive.foldl
    (fun s adj => if strContains text adj then s + 0.05 else s) s1
  let s3 : ℚ :=
    if hasDigitThen '倍' cs || hasPatThenDigit "百分之".toList cs
        || hasDigitThen '%' cs
    then s2 + 0.05 else s2
  pymin s3 0.3

/-- The detector `_detect_contact_info` (lines 358-373): 0.05 per matching pattern of
the four contact patterns, capped at 0.2. -/
def detectContactInfo (text : String) : ℚ :=
  let cs := text.toList
  let p1 := strContains text "微信" || strContains text "qq"
    || strContains text "电话" || strContains text "手机"
    || strContains text "联系"
  let p2 := hasDigitRun 11 cs
  let p3 := hasPatWsPred "qq:".toList Char.isDigit cs
  let p4 := hasPatWsPred "微信:".toList isWordChar cs
  let score : ℚ := (if p1 then 0.05 else 0) + (if p2 then 0.05 else 0)
    + (if p3 then 0.05 else 0) + (if p4 then 0.05 else 0)
  pymin score 0.2

/-- The detector `_detect_urgency` (lines 375-380): `min(count * 0.05, 0.2)` where
`count` is the number of urgency words present in the text. -/
def detectUrgency (text : String) : ℚ :=
  let urgencyWords := ["赶紧", "立即", "马上", "快速", "紧急", "限时", "截止", "最后"]
  let count := urgencyWords.countP (fun w => strContains text w)
  pymin ((count : ℚ) * 0.05) 0.2

/-- The detector `_detect_suspicious_numbers` (lines 382-399).  The guard
`re.search(r'(\d+)%.*收益|收益.*(\d+)%', text)` is equivalent to the text
containing `收益` and containing some `\d+%` (the two matches are disjoint
character blocks, so one always precedes the other). -/
def detectSuspiciousNumbers (text : String) : ℚ :=
  let cs := text.toList
  let yield : ℚ :=
    if strContains text "收益" && hasDigitThen '%' cs then
      (percentNumbers [] cs).foldl (fun s n => if 20 < n then s + 0.1 else s) 0
    else 0
  let m1 : ℚ := if hasDigitThen '万' cs then 0.05 else 0
  let m2 : ℚ := if hasDigitThen '千' cs then 0.05 else 0
  let m3 : ℚ := if hasDigitThen '元' cs then 0.05 else 0
  pymin (yield + m1 + m2 + m3) 0.3

/-! ## Risk aggregator (`_perform_detection`, detection.py lines 226-315) -/

/-- The mutable accumulators of `_perform_detection`'s body:
`risk_score`, `reasons`, `suggestions`, `categories`, `keywords_found`. -/
structure DetAcc where
  score : ℚ
  reasons : List String
  suggestions : List String
  categories : List String
  keywordsFound : List String
deriving Repr

/-- The category-specific suggestions appended inside the keyword loop
(lines 249-256). -/
def categorySuggestions (category : String) : List String :=
  if category = "financial_fraud" then
    ["投资需谨慎，高收益往往伴随高风险", "不要轻易相信保证收益的投资项目"]
  else if category = "medical_fraud" then
    ["有病请找正规医院，不要轻信偏方", "保健品不能替代药物治疗"]
  else if category = "general_fraud" then
    ["谨防诈骗，不要轻易转账或泄露个人信息"]
  else []

/-- One iteration of the keyword loop (lines 236-256): if the category has
at least one match, add `min(matches * 0.15, 0.6)` to the score, record up
to five matched keywords, the category, one reason, and the
category-specific suggestions. -/
def keywordStep (text : String) (acc : DetAcc) (cat : String × List String) : DetAcc :=
  let hits := countKeywordMatches text cat.2
  if 0 < hits then
    { score := acc.score + pymin ((hits : ℚ) * 0.15) 0.6,
      reasons := acc.reasons
        ++ ["发现" ++ toString hits ++ "个" ++ cat.1 ++ "相关关键词"],
      suggestions := acc.suggestions ++ categorySuggestions cat.1,
      categories := acc.categories ++ [cat.1],
      keywordsFound := acc.keywordsFound
        ++ (cat.2.filter (fun kw => strContains text kw)).take 5 }
  else acc

/-- The accumulator after the whole keyword loop. -/
def accKeywords (text : String) : DetAcc :=
  keywordsDb.foldl (keywordStep text) ⟨0, [], [], [], []⟩

/-- After step 2, language patterns (lines 258-262): the contribution is
added only when it is strictly greater than `0.1`. -/
def accPattern (text : String) : DetAcc :=
  let a := accKeywords text
  let patternScore := detectLanguagePatterns text
  if 0.1 < patternScore then
    { a with score := a.score + patternScore,
             reasons := a.reasons ++ ["检测到可疑的语言模式"] }
  else a

/-- After step 3, contact info (lines 264-269): added only when positive
and the running `risk_score` is already positive. -/
def accContact (text : String) : DetAcc :=
  let a := accPattern text
  let contactScore := detectContactInfo text
  if 0 < contactScore ∧ 0 < a.score then
    { a with score := a.score + contactScore,
             reasons := a.reasons ++ ["含有联系方式且存在其他风险因素"],
             suggestions := a.suggestions ++ ["不要轻易添加陌生人联系方式"] }
  else a

/-- After step 4, urgency (lines 271-276): added only when strictly greater
than `0.1`. -/
def accUrgency (text : String) : DetAcc :=
  let a := accContact text
  let urgencyScore := detectUrgency text
  if 0.1 < urgencyScore then
    { a with score := a.score + urgencyScore,
             reasons := a.reasons ++ ["内容使用大量紧急性语言，可能是诱导手段"],
             suggestions := a.suggestions ++ ["冷静思考，不要被紧急性语言误导"] }
  else a

/-- After step 5, suspicious numbers (lines 278-282): added only when
positive. -/
def accNumbers (text : String) : DetAcc :=
  let a := accUrgency text
  let numberScore := detectSuspiciousNumbers text
  if 0 < numberScore then
    { a with score := a.score + numberScore,
             reasons := a.reasons ++ ["检测到可疑的数字承诺"] }
  else a

/-- The fixed score-to-level thresholds of lines 287-296:
`score ≥ 0.7 → DANGER`, `0.4 ≤ score < 0.7 → WARNING`, else `SAFE`. -/
def riskLevelOf (s : ℚ) : RiskLevel :=
  if 0.7 ≤ s then RiskLevel.danger
  else if 0.4 ≤ s then RiskLevel.warning
  else RiskLevel.safe

/-- The user-facing message chosen together with the level. -/
def riskMessageOf (s : ℚ) : String :=
  if 0.7 ≤ s then "检测到高风险内容，建议立即停止观看"
  else if 0.4 ≤ s then "内容存在可疑信息，请谨慎对待"
  else "暂未发现明显风险"

/-- The aggregator `_perform_detection` (lines 226-315): run the five detectors, clamp the
total with `min(risk_score, 1.0)`, derive level and message, append the two
generic suggestions when the level is not SAFE, and build the result
(confidence fixed at 0.8). -/
def performDetection (text detectionId : String) : DetectionResult :=
  let confidence : ℚ := 0.8
  let a := accNumbers text
  let riskScore := pymin a.score 1
  let level := riskLevelOf riskScore
  let message := riskMessageOf riskScore
  let suggestions :=
    if level ≠ RiskLevel.safe then
      a.suggestions ++ ["如有疑问，请咨询家人或专业人士", "遇到要求转账的情况请立即警惕"]
    else a.suggestions
  mkDetectionResult level riskScore confidence message a.reasons suggestions
    a.categories a.keywordsFound detectionId

/-! ## Engine state: cache, statistics, `detect_text` -/

/-- Python's insertion-ordered `dict` lookup on an association list. -/
def assocFind {K V : Type} [DecidableEq K] : List (K × V) → K → Option V
  | [], _ => none
  | (k', v) :: rest, k => if k' = k then some v else assocFind rest k

/-- Python's `d[k] = v` on a `dict`: replace in place if the key is present,
otherwise append at the end (insertion order). -/
def dictInsert {K V : Type} [DecidableEq K] : List (K × V) → K → V → List (K × V)
  | [], k, v => [(k, v)]
  | (k', v') :: rest, k, v =>
      if k' = k then (k, v) :: rest else (k', v') :: dictInsert rest k v

/-- The eviction `_cleanup_cache` (lines 406-413): once the dict holds more than 1000
entries, delete the oldest `len // 2` entries (insertion order). -/
def cleanupCache {K V : Type} (m : List (K × V)) : List (K × V) :=
  if 1000 < m.length then m.drop (m.length / 2) else m

/-- One `put`: `self.cache[cache_key] = result` followed by `self._cleanup_cache()`
(lines 164-165). -/
def cachePut {K V : Type} [DecidableEq K] (m : List (K × V)) (k : K) (v : V) :
    List (K × V) :=
  cleanupCache (dictInsert m k v)

/-- The record `app.models.detection.DetectionStats` (the fields used by
`_update_statistics` and `get_statistics`); the model file is not under
`src/`, counters start at zero. -/
structure DetectionStats where
  total_detections : Nat
  safe_count : Nat
  warning_count : Nat
  danger_count : Nat
  avg_processing_time : ℚ
deriving DecidableEq, Repr

/-- The recorder `_update_statistics` (lines 415-428). -/
def updateStatistics (s : DetectionStats) (r : DetectionResult) (elapsed : ℚ) :
    DetectionStats :=
  let total := s.total_detections + 1
  { total_detections := total,
    safe_count := if r.level = RiskLevel.safe then s.safe_count + 1 else s.safe_count,
    warning_count := if r.level = RiskLevel.warning then s.warning_count + 1 else s.warning_count,
    danger_count := if r.level = RiskLevel.danger then s.danger_count + 1 else s.danger_count,
    avg_processing_time :=
      (s.avg_processing_time * ((total : ℚ) - 1) + elapsed) / (total : ℚ) }

/-- The engine's mutable state: the result cache (a Python dict keyed by
the cache key) and the running statistics. -/
structure EngineState where
  cache : List (String × DetectionResult)
  statistics : DetectionStats
deriving Repr

/-- The state of a freshly constructed `DetectionEngine`. -/
def emptyEngine : EngineState :=
  ⟨[], ⟨0, 0, 0, 0, 0⟩⟩

/-- The fingerprint `_generate_cache_key` (lines 401-404): the MD5 hex digest of the UTF-8
encoding of the RAW input text.  The digest is modelled as the text itself:
its only role is to serve as a dictionary key, and the model treats MD5 as
collision-free (for the concrete inputs appearing below the real digests
are indeed distinct).  What the model keeps exactly is that the key is a
function of the raw text, computed BEFORE `_preprocess_text` runs. -/
def generateCacheKey (text : String) : String := text

/-- The body of `detect_text`'s `try` block (lines 148-177): check the
cache (on a hit, overwrite the cached object's `detection_id` — the Python
code mutates the object stored in the dict — and return it), otherwise
preprocess, detect, cache the result, clean the cache up, and update the
statistics.  `elapsed` stands for the measured wall-clock processing time
of this call. -/
def detectBody (st : EngineState) (text detectionId : String) (elapsed : ℚ) :
    DetectionResult × EngineState :=
  let key := generateCacheKey text
  match assocFind st.cache key with
  | some cached =>
      let r := { cached with detection_id := detectionId }
      (r, { st with cache := dictInsert st.cache key r })
  | none =>
      let cleaned := preprocessText text
      let result := performDetection cleaned detectionId
      let cache := cachePut st.cache key result
      let stats := updateStatistics st.statistics result elapsed
      (⟨result, cache, stats⟩ : DetectionResult × EngineState)

/-- The fallback result built in `detect_text`'s `except` branch
(lines 179-190): SAFE, score 0, confidence 0.1, fixed message, reason and
suggestion; the engine state is left as it was. -/
def fallbackResult (detectionId : String) : DetectionResult :=
  mkDetectionResult RiskLevel.safe 0 0.1 "检测服务异常，请手动验证内容安全性"
    ["系统检测异常"] ["建议人工确认内容真实性"] [] [] detectionId

/-- The `try`/`except` wrapper of `detect_text`: a failing body (whatever
the internal exception) is replaced by the fallback result and the state is
returned unchanged; a successful body is returned as is.  This is a total
function — no exception escapes it. -/
def detectTextRun (st : EngineState) (detectionId : String)
    (body : Except String (DetectionResult × EngineState)) :
    DetectionResult × EngineState :=
  match body with
  | Except.ok out => out
  | Except.error _ => (fallbackResult detectionId, st)

/-- The entry point `detect_text` (lines 127-190) in the non-throwing run: the guarded body
applied to the actual body computation. -/
def detectText (st : EngineState) (text detectionId : String) (elapsed : ℚ) :
    DetectionResult × EngineState :=
  detectTextRun st detectionId (Except.ok (detectBody st text detectionId elapsed))

/-! ## Ensemble voter (`_weighted_voting`, ai_models.py lines 491-515) -/

/-- One classifier opinion as consumed by `_weighted_voting`: the source
dict `{'model': ..., 'prediction': 'safe'|'warning'|'danger',
'confidence': ..., 'explanation': ...}`. -/
structure ModelOpinion where
  model : String
  prediction : RiskLevel
  confidence : ℚ
  explanation : String
deriving DecidableEq, Repr

/-- The `vote_scores` dict `{'safe': 0, 'warning': 0, 'danger': 0}`, in its
insertion order safe, warning, danger. -/
structure VoteScores where
  safe : ℚ
  warning : ℚ
  danger : ℚ
deriving DecidableEq, Repr

/-- Read one entry of the `vote_scores` dict. -/
def VoteScores.get (v : VoteScores) : RiskLevel → ℚ
  | RiskLevel.safe => v.safe
  | RiskLevel.warning => v.warning
  | RiskLevel.danger => v.danger

/-- One bump `vote_scores[pred['prediction']] += x`. -/
def VoteScores.bump (v : VoteScores) : RiskLevel → ℚ → VoteScores
  | RiskLevel.safe, x => { v with safe := v.safe + x }
  | RiskLevel.warning, x => { v with warning := v.warning + x }
  | RiskLevel.danger, x => { v with danger := v.danger + x }

/-- The argmax `max(vote_scores, key=vote_scores.get)`: Python's `max` walks the dict
keys in insertion order (safe, warning, danger) and keeps the first key
whose value is strictly greater than the running best, so the FIRST key
attaining the maximum wins. -/
def argmaxVote (v : VoteScores) : RiskLevel :=
  if v.warning ≤ v.safe ∧ v.danger ≤ v.safe then RiskLevel.safe
  else if v.danger ≤ v.warning then RiskLevel.warning
  else RiskLevel.danger

/-- The lookup `weights.get(model_name.lower(), 0.1)`: the static weight of an
opinion's source, defaulting to 0.1 for an unknown source. -/
def opinionWeight (weights : List (String × ℚ)) (p : ModelOpinion) : ℚ :=
  match assocFind weights p.model.toLower with
  | some w => w
  | none => 0.1

/-- The ensemble verdict returned by `_weighted_voting` (the
`model_predictions` echo of the input list is dropped). -/
structure EnsembleVerdict where
  prediction : RiskLevel
  confidence : ℚ
  explanation : String
  vote_scores : VoteScores
deriving DecidableEq, Repr

/-- One iteration of `_weighted_voting`'s loop: accumulate
`vote_scores[pred] += weight * confidence`,
`total_confidence += confidence * weight`, and the explanation trail. -/
def votingStep (weights : List (String × ℚ))
    (acc : VoteScores × ℚ × List String) (p : ModelOpinion) :
    VoteScores × ℚ × List String :=
  let w := opinionWeight weights p
  (acc.1.bump p.prediction (w * p.confidence),
   acc.2.1 + p.confidence * w,
   acc.2.2 ++ [p.model ++ ": " ++ p.explanation])

/-- The voter `_weighted_voting(predictions, weights)` (ai_models.py lines 491-515):
fold the loop over the opinions, pick `max(vote_scores,
key=vote_scores.get)`, and divide the accumulated weighted confidence by
the NUMBER of opinions. -/
def weightedVoting (predictions : List ModelOpinion)
    (weights : List (String × ℚ)) : EnsembleVerdict :=
  let r := predictions.foldl (votingStep weights) (⟨0, 0, 0⟩, 0, [])
  { prediction := argmaxVote r.1,
    confidence := r.2.1 / (predictions.length : ℚ),
    explanation := String.intercalate " | " r.2.2,
    vote_scores := r.1 }

/-- Specification-side vote mass (the claim's wording): the sum, over the
opinions predicting level `l`, of `weight * confidence`. -/
def voteMassSpec (predictions : List ModelOpinion)
    (weights : List (String × ℚ)) (l : RiskLevel) : ℚ :=
  ((predictions.filter (fun p => p.prediction = l)).map
    (fun p => opinionWeight weights p * p.confidence)).sum

/-- Specification-side total weighted confidence. -/
def totalConfSpec (predictions : List ModelOpinion)
    (weights : List (String × ℚ)) : ℚ :=
  (predictions.map (fun p => p.confidence * opinionWeight weights p)).sum

/-! ## Basic score lemmas -/

theorem foldl_keywordStep_nonneg (text : String) (cats : List (String × List String))
    (a : DetAcc) (h : 0 ≤ a.score) :
    0 ≤ (cats.foldl (keywordStep text) a).score := by
  induction cats generalizing a with
  | nil => exact h
  | cons c cs ih =>
    refine ih _ ?_
    unfold keywordStep
    dsimp only
    split
    · have h15 : (0 : ℚ) ≤ (countKeywordMatches text c.2 : ℚ) * 0.15 := by positivity
      have hm := le_min h15 (by norm_num : (0 : ℚ) ≤ 0.6)
      rw [← pymin_eq_min] at hm
      simp only
      linarith
    · exact h

theorem accKeywords_nonneg (text : String) : 0 ≤ (accKeywords text).score :=
  foldl_keywordStep_nonneg text keywordsDb ⟨0, [], [], [], []⟩ le_rfl

theorem accPattern_nonneg (text : String) : 0 ≤ (accPattern text).score := by
  unfold accPattern
  dsimp only
  split
  · rename_i h
    have := accKeywords_nonneg text
    simp only
    linarith
  · exact accKeywords_nonneg text

theorem accContact_nonneg (text : String) : 0 ≤ (accContact text).score := by
  unfold accContact
  dsimp only
  split
  · rename_i h
    have := accPattern_nonneg text
    simp only
    linarith [h.1]
  · exact accPattern_nonneg text

theorem accUrgency_nonneg (text : String) : 0 ≤ (accUrgency text).score := by
  unfold accUrgency
  dsimp only
  split
  · rename_i h
    have := accContact_nonneg text
    simp only
    linarith
  · exact accContact_nonneg text

theorem accNumbers_nonneg (text : String) : 0 ≤ (accNumbers text).score := by
  unfold accNumbers
  dsimp only
  split
  · rename_i h
    have := accUrgency_nonneg text
    simp only
    linarith
  · exact accUrgency_nonneg text

/-- C1: For every input text, the detection result's score lies in [0,1],
and the risk level is a pure deterministic function of the score via the
fixed thresholds `score ≥ 0.7 → Danger`, `0.4 ≤ score < 0.7 → Warning`,
`score < 0.4 → Safe` (the function `riskLevelOf`). -/
theorem detection_score_unit_level_thresholds (text id : String) :
    0 ≤ (performDetection text id).score ∧ (performDetection text id).score ≤ 1 ∧
    (performDetection text id).level = riskLevelOf (performDetection text id).score := by
  unfold performDetection
  simp only [mkDetectionResult_score, mkDetectionResult_level, pymin_eq_min]
  exact ⟨le_min (accNumbers_nonneg text) zero_le_one, min_le_right _ _, trivial⟩

/-- C2: `detect_text` never propagates an exception: the `try`/`except`
wrapper `detectTextRun` is a total function returning a
`DetectionResult × EngineState` for every body outcome, and whenever the
internal body fails (`Except.error`), the returned result is the fixed
fallback — level Safe, score 0, confidence 0.1 — with the state unchanged,
instead of a propagated error. -/
theorem detect_fallback_on_internal_error (st : EngineState) (id err : String) :
    detectTextRun st id (Except.error err) = (fallbackResult id, st) ∧
    (fallbackResult id).level = RiskLevel.safe ∧
    (fallbackResult id).score = 0 ∧
    (fallbackResult id).confidence = 0.1 := by
  refine ⟨rfl, ?_, ?_, ?_⟩ <;>
    simp [fallbackResult]

/-- C3: For every input text the returned reasons list is non-empty, and
when no detector produced any reason (the `reasons` argument reaching the
`DetectionResult` constructor is empty) the result carries
`reasons = ["no risk factors found"]` and
`suggestions = ["content appears safe"]`.  (The empty-reasons fallback
lives in the `DetectionResult` model, `mkDetectionResult`, modelled from
the spec — see its doc comment.) -/
theorem detection_reasons_nonempty (text id : String) (l : RiskLevel)
    (s c : ℚ) (m : String) (sg cs ks : List String) (rid : String) :
    0 < (performDetection text id).reasons.length ∧
    (mkDetectionResult l s c m [] sg cs ks rid).reasons = ["no risk factors found"] ∧
    (mkDetectionResult l s c m [] sg cs ks rid).suggestions = ["content appears safe"] := by
  refine ⟨?_, rfl, rfl⟩
  unfold performDetection
  exact mkDetectionResult_reasons_len _ _ _ _ _ _ _ _ _

/-! ## Score decomposition (claim C4) -/

/-- The score contribution of one keyword category:
`min(matches * 0.15, 0.6)` when at least one keyword matches, else 0. -/
def categoryContribution (text : String) (cat : String × List String) : ℚ :=
  let hits := countKeywordMatches text cat.2
  if 0 < hits then pymin ((hits : ℚ) * 0.15) 0.6 else 0

/-- The total contribution of the category-keyword detector. -/
def keywordTotal (text : String) : ℚ :=
  (keywordsDb.map (categoryContribution text)).sum

theorem foldl_keywordStep_score (text : String) (cats : List (String × List String))
    (a : DetAcc) :
    (cats.foldl (keywordStep text) a).score
      = a.score + (cats.map (categoryContribution text)).sum := by
  induction cats generalizing a with
  | nil => simp
  | cons c cs ih =>
    rw [List.foldl_cons, ih, List.map_cons, List.sum_cons]
    unfold keywordStep categoryContribution
    dsimp only
    split <;> simp
    ring

theorem accKeywords_score (text : String) :
    (accKeywords text).score = keywordTotal text := by
  unfold accKeywords keywordTotal
  rw [foldl_keywordStep_score]
  simp

theorem accPattern_score (text : String) :
    (accPattern text).score = (accKeywords text).score
      + (if 0.1 < detectLanguagePatterns text then detectLanguagePatterns text else 0) := by
  unfold accPattern
  dsimp only
  split <;> rename_i h <;> simp [h]

theorem accContact_score (text : String) :
    (accContact text).score = (accPattern text).score
      + (if 0 < detectContactInfo text ∧ 0 < (accPattern text).score
          then detectContactInfo text else 0) := by
  unfold accContact
  dsimp only
  split <;> rename_i h <;> simp [h]

theorem accUrgency_score (text : String) :
    (accUrgency text).score = (accContact text).score
      + (if 0.1 < detectUrgency text then detectUrgency text else 0) := by
  unfold accUrgency
  dsimp only
  split <;> rename_i h <;> simp [h]

theorem accNumbers_score (text : String) :
    (accNumbers text).score = (accUrgency text).score
      + (if 0 < detectSuspiciousNumbers text then detectSuspiciousNumbers text else 0) := by
  unfold accNumbers
  dsimp only
  split <;> rename_i h <;> simp [h]

/-- The aggregate score as the source actually computes it, written as one
conditional sum: the keyword total, plus the language-pattern contribution
only when it exceeds 0.1, plus the contact contribution only when it is
positive and the running total so far is positive, plus the urgency
contribution only when it exceeds 0.1, plus the numeric contribution only
when it is positive — all clamped to at most 1. -/
def conditionalScore (text : String) : ℚ :=
  let kw := keywordTotal text
  let pat := detectLanguagePatterns text
  let s1 := kw + (if 0.1 < pat then pat else 0)
  let con := detectContactInfo text
  let s2 := s1 + (if 0 < con ∧ 0 < s1 then con else 0)
  let urg := detectUrgency text
  let s3 := s2 + (if 0.1 < urg then urg else 0)
  let num := detectSuspiciousNumbers text
  pymin (s3 + (if 0 < num then num else 0)) 1

/-- The aggregate score as claim C4 words it: the clamped-to-[0,1] sum of
ALL five detector contributions, with only the contact-info contribution
conditional (added when the running total is already positive); every
non-zero urgency or language-pattern contribution is included
unconditionally. -/
def claimedScoreC4 (text : String) : ℚ :=
  let kw := keywordTotal text
  let pat := detectLanguagePatterns text
  let con := detectContactInfo text
  let urg := detectUrgency text
  let num := detectSuspiciousNumbers text
  pymin (kw + pat + (if 0 < con ∧ 0 < kw + pat then con else 0) + urg + num) 1

/-- C4 counterexample: on the text `"赶紧"` the urgency-word count is 1, so
the urgency detector's contribution `min(count * 0.05, 0.2) = 0.05` is
non-zero; the claimed score (sum of all five contributions) would be 0.2,
but the engine only adds urgency contributions strictly greater than 0.1,
so the actual score is 0.15 — refuting the claim at this input. -/
theorem claimed_sum_counterexample :
    detectUrgency "赶紧" = 0.05 ∧ 0 < detectUrgency "赶紧" ∧
    claimedScoreC4 "赶紧" = 0.2 ∧
    (performDetection "赶紧" "id0").score = 0.15 ∧
    (performDetection "赶紧" "id0").score ≠ claimedScoreC4 "赶紧" := by
  refine ⟨?_, ?_, ?_, ?_, ?_⟩ <;> with_unfolding_all decide

/-- C4 amended: the aggregate score equals the clamped-to-[0,1]
CONDITIONAL sum `conditionalScore`: the language-pattern and urgency
contributions enter only when strictly greater than 0.1, the numeric
contribution only when positive, and the contact contribution only when
positive with the running total positive; in particular urgency
contributions of 0.05 or 0.1 (one or two urgency words) are dropped. -/
theorem score_is_conditional_sum (text id : String) :
    (performDetection text id).score = conditionalScore text := by
  unfold performDetection conditionalScore
  simp only [mkDetectionResult_score]
  rw [accNumbers_score, accUrgency_score, accContact_score, accPattern_score,
    accKeywords_score]

/-! ## The concrete scenario of claim C5 -/

/-- The concrete input of spec scenario 1. -/
def c5Text : String := "月入三万的理财秘诀，保证收益无风险！"

/-- C5 counterexample: on the input
`"月入三万的理财秘诀，保证收益无风险！"` the financial_fraud category has
exactly ONE keyword match (only `"保证收益"` occurs — `"月入万元"`,
`"高收益"`, `"无风险投资"` do not), so the claimed "≥ 2 keyword matches"
is false, and the detection returns level Safe with score 0.15 < 0.7, not
Danger with score ≥ 0.7. -/
theorem c5_concrete_counterexample :
    ((assocFind keywordsDb "financial_fraud").map
      (countKeywordMatches (preprocessText c5Text))) = some 1 ∧
    (detectText emptyEngine c5Text "id0" 0).1.level = RiskLevel.safe ∧
    (detectText emptyEngine c5Text "id0" 0).1.score < 0.7 := by
  refine ⟨?_, ?_, ?_⟩ <;> with_unfolding_all decide

/-- C5 amended: on the input
`"月入三万的理财秘诀，保证收益无风险！"` the financial_fraud category
fires with exactly 1 keyword match, giving score `0.15` and level Safe
(`0.15 < 0.4`), with `financial_fraud` as the only fired category. -/
theorem c5_concrete_result :
    ((assocFind keywordsDb "financial_fraud").map
      (countKeywordMatches (preprocessText c5Text))) = some 1 ∧
    (detectText emptyEngine c5Text "id0" 0).1.score = 0.15 ∧
    (detectText emptyEngine c5Text "id0" 0).1.level = RiskLevel.safe ∧
    (detectText emptyEngine c5Text "id0" 0).1.categories = ["financial_fraud"] := by
  refine ⟨?_, ?_, ?_, ?_⟩ <;> with_unfolding_all decide

/-! ## Association-list (Python dict) lemmas -/

theorem assocFind_dictInsert_self {K V : Type} [DecidableEq K]
    (m : List (K × V)) (k : K) (v : V) :
    assocFind (dictInsert m k v) k = some v := by
  induction m with
  | nil => simp [dictInsert, assocFind]
  | cons p rest ih =>
    obtain ⟨k', v'⟩ := p
    by_cases h : k' = k <;> simp [dictInsert, assocFind, h, ih]

theorem assocFind_dictInsert_ne {K V : Type} [DecidableEq K]
    (m : List (K × V)) (k k' : K) (v : V) (hne : k' ≠ k) :
    assocFind (dictInsert m k v) k' = assocFind m k' := by
  induction m with
  | nil => simp [dictInsert, assocFind, Ne.symm hne]
  | cons p rest ih =>
    obtain ⟨k0, v0⟩ := p
    by_cases h : k0 = k
    · subst h
      simp [dictInsert, assocFind, Ne.symm hne]
    · simp [dictInsert, assocFind, h, ih]

theorem dictInsert_of_find_none {K V : Type} [DecidableEq K]
    (m : List (K × V)) (k : K) (v : V) (h : assocFind m k = none) :
    dictInsert m k v = m ++ [(k, v)] := by
  induction m with
  | nil => simp [dictInsert]
  | cons p rest ih =>
    obtain ⟨k0, v0⟩ := p
    by_cases hk : k0 = k
    · simp [assocFind, hk] at h
    · simp [assocFind, hk] at h
      simp [dictInsert, hk, ih h]

theorem assocFind_append_right {K V : Type} [DecidableEq K]
    (m l : List (K × V)) (k : K) (h : assocFind m k = none) :
    assocFind (m ++ l) k = assocFind l k := by
  induction m with
  | nil => simp
  | cons p rest ih =>
    obtain ⟨k0, v0⟩ := p
    by_cases hk : k0 = k
    · simp [assocFind, hk] at h
    · simp [assocFind, hk] at h
      simpa [assocFind, hk] using ih h

theorem assocFind_drop_none {K V : Type} [DecidableEq K]
    (m : List (K × V)) (k : K) (j : Nat) (h : assocFind m k = none) :
    assocFind (m.drop j) k = none := by
  induction j generalizing m with
  | zero => simpa using h
  | succ n ih =>
    cases m with
    | nil => simp [assocFind]
    | cons p rest =>
      obtain ⟨k0, v0⟩ := p
      by_cases hk : k0 = k
      · simp [assocFind, hk] at h
      · simp [assocFind, hk] at h
        simpa using ih rest h

theorem assocFind_cleanup_none {K V : Type} [DecidableEq K]
    (m : List (K × V)) (k : K) (h : assocFind m k = none) :
    assocFind (cleanupCache m) k = none := by
  unfold cleanupCache
  split
  · exact assocFind_drop_none m k _ h
  · exact h

theorem assocFind_cachePut_self {K V : Type} [DecidableEq K]
    (m : List (K × V)) (k : K) (v : V) (h : assocFind m k = none) :
    assocFind (cachePut m k v) k = some v := by
  unfold cachePut
  rw [dictInsert_of_find_none m k v h]
  unfold cleanupCache
  split
  · rename_i hlen
    have hlen' : (m ++ [(k, v)]).length = m.length + 1 := by simp
    have hj : (m ++ [(k, v)]).length / 2 ≤ m.length := by omega
    rw [List.drop_append_eq_append_drop]
    rw [Nat.sub_eq_zero_of_le hj, List.drop_zero]
    rw [assocFind_append_right _ _ _ (assocFind_drop_none m k _ h)]
    simp [assocFind]
  · rw [assocFind_append_right _ _ _ h]
    simp [assocFind]

/-! ## Claims C7, C9, C10: cache behaviour of `detect_text` -/

/-- C7: calling `detect_text` twice in a row on the same text yields
identical score, level, reasons and categories (the detection ids may
differ: the second result is the first one with only `detection_id`
replaced), and the second call is served from the cache — its result is
the entry the first call left under the text's cache key. -/
theorem detect_idempotent (st : EngineState) (t id1 id2 : String) (e1 e2 : ℚ) :
    (detectText (detectText st t id1 e1).2 t id2 e2).1.score
        = (detectText st t id1 e1).1.score ∧
    (detectText (detectText st t id1 e1).2 t id2 e2).1.level
        = (detectText st t id1 e1).1.level ∧
    (detectText (detectText st t id1 e1).2 t id2 e2).1.reasons
        = (detectText st t id1 e1).1.reasons ∧
    (detectText (detectText st t id1 e1).2 t id2 e2).1.categories
        = (detectText st t id1 e1).1.categories ∧
    ∃ r, assocFind (detectText st t id1 e1).2.cache (generateCacheKey t) = some r ∧
      (detectText (detectText st t id1 e1).2 t id2 e2).1
        = { r with detection_id := id2 } := by
  unfold detectText detectTextRun detectBody
  cases h : assocFind st.cache (generateCacheKey t) with
  | some cached =>
    have h2 := assocFind_dictInsert_self st.cache (generateCacheKey t)
      { cached with detection_id := id1 }
    simp only [h, h2]
    exact ⟨trivial, trivial, trivial, trivial, _, rfl, rfl⟩
  | none =>
    have h2 := assocFind_cachePut_self st.cache (generateCacheKey t)
      (performDetection (preprocessText t) id1) h
    simp only [h, h2]
    exact ⟨trivial, trivial, trivial, trivial, _, rfl, rfl⟩

/-- C9 amended: the cache key is computed from the RAW input text (its MD5
digest), before any normalization: on a miss the result is computed from
the preprocessed text, and a `detect_text` call on `t1` never creates a
cache entry that a different raw text `t2` can hit — normalized-equal but
raw-different texts do NOT share a cache entry. -/
theorem cache_keyed_by_raw_text :
    (∀ (st : EngineState) (t id : String) (e : ℚ),
        assocFind st.cache (generateCacheKey t) = none →
        (detectText st t id e).1 = performDetection (preprocessText t) id) ∧
    (∀ (st : EngineState) (t1 t2 id : String) (e : ℚ), t1 ≠ t2 →
        assocFind st.cache (generateCacheKey t2) = none →
        assocFind (detectText st t1 id e).2.cache (generateCacheKey t2) = none) := by
  constructor
  · intro st t id e h
    simp [detectText, detectTextRun, detectBody, h]
  · intro st t1 t2 id e hne h
    unfold detectText detectTextRun detectBody
    have hkne : generateCacheKey t2 ≠ generateCacheKey t1 := fun hk => hne (Eq.symm hk)
    cases h1 : assocFind st.cache (generateCacheKey t1) with
    | some cached =>
      simp only [h1]
      rw [assocFind_dictInsert_ne _ _ _ _ hkne]
      exact h
    | none =>
      simp only [h1]
      exact assocFind_cleanup_none _ _
        ((assocFind_dictInsert_ne _ _ _ _ hkne).trans h)

/-- C9 counterexample: `"ABC"` and `"abc"` have the same normalized form
`"abc"`, yet their cache keys differ (MD5 of different raw texts), and
after detecting `"ABC"` from the empty engine the cache has NO entry under
`"abc"`'s key — the second text would not be served the first one's cached
result, refuting the claim that same-normalized-form texts share one cache
entry. -/
theorem c9_normalized_key_counterexample :
    preprocessText "ABC" = preprocessText "abc" ∧
    generateCacheKey "ABC" ≠ generateCacheKey "abc" ∧
    assocFind (detectText emptyEngine "ABC" "id1" 0).2.cache
      (generateCacheKey "abc") = none := by
  refine ⟨?_, ?_, ?_⟩ <;> with_unfolding_all decide

theorem cache_keyed_by_raw_text_witness :
    ("ABC" : String) ≠ "abc" ∧
    assocFind (emptyEngine).cache (generateCacheKey "abc") = none ∧
    assocFind (detectText emptyEngine "ABC" "id1" 0).2.cache
      (generateCacheKey "abc") = none :=
  ⟨by decide, rfl,
    cache_keyed_by_raw_text.2 emptyEngine "ABC" "abc" "id1" 0 (by decide) rfl⟩

/-- C10: a `detect_text` call answered from the cache returns before
`_update_statistics` runs, so the statistics (total count, per-level
counts, average processing time) are exactly the ones of the pre-call
state. -/
theorem cache_hit_preserves_statistics (st : EngineState) (t id : String)
    (e : ℚ) (h : (assocFind st.cache (generateCacheKey t)).isSome = true) :
    (detectText st t id e).2.statistics = st.statistics := by
  rw [Option.isSome_iff_exists] at h
  obtain ⟨r, hr⟩ := h
  simp [detectText, detectTextRun, detectBody, hr]

/-- A concrete engine state holding one cached entry, for the C10
witness. -/
def hitState : EngineState :=
  ⟨[("已缓存文本", fallbackResult "w0")], ⟨3, 1, 1, 1, 0.5⟩⟩

theorem cache_hit_preserves_statistics_witness :
    (assocFind hitState.cache (generateCacheKey "已缓存文本")).isSome = true ∧
    (detectText hitState "已缓存文本" "id9" 2).2.statistics = hitState.statistics :=
  ⟨by with_unfolding_all decide,
    cache_hit_preserves_statistics hitState "已缓存文本" "id9" 2
      (by with_unfolding_all decide)⟩

/-! ## Claim C6: cache size bound and eviction -/

/-- Insert a sequence of fingerprints (with values `f k`) one `put`
(insert + cleanup, detection.py lines 164-165) at a time. -/
def putMany {K V : Type} [DecidableEq K] (m : List (K × V)) (ks : List K)
    (f : K → V) : List (K × V) :=
  ks.foldl (fun m k => cachePut m k (f k)) m

theorem assocFind_eq_none_of_notMem {K V : Type} [DecidableEq K]
    (m : List (K × V)) (k : K) (h : k ∉ m.map Prod.fst) :
    assocFind m k = none := by
  induction m with
  | nil => rfl
  | cons p rest ih =>
    obtain ⟨k0, v0⟩ := p
    simp only [List.map_cons, List.mem_cons, not_or] at h
    have : k0 ≠ k := fun he => h.1 he.symm
    simp [assocFind, this, ih h.2]

theorem putMany_no_evict {K V : Type} [DecidableEq K] (f : K → V) (ks : List K)
    (m : List (K × V)) (hnd : ks.Nodup)
    (hdis : ∀ k ∈ ks, assocFind m k = none)
    (hlen : m.length + ks.length ≤ 1000) :
    putMany m ks f = m ++ ks.map (fun k => (k, f k)) := by
  induction ks generalizing m with
  | nil => simp [putMany]
  | cons k ks ih =>
    have hk : assocFind m k = none := hdis k (by simp)
    have hstep : cachePut m k (f k) = m ++ [(k, f k)] := by
      unfold cachePut
      rw [dictInsert_of_find_none m k (f k) hk]
      unfold cleanupCache
      rw [if_neg]
      simp only [List.length_append, List.length_cons] at hlen ⊢
      simp only [List.length_nil]
      omega
    have hnd' := (List.nodup_cons.mp hnd).2
    have hknot := (List.nodup_cons.mp hnd).1
    have hdis' : ∀ k' ∈ ks, assocFind (m ++ [(k, f k)]) k' = none := by
      intro k' hk'
      rw [assocFind_append_right _ _ _ (hdis k' (List.mem_cons_of_mem _ hk'))]
      have : k ≠ k' := fun he => hknot (he ▸ hk')
      simp [assocFind, this]
    have hlen' : (m ++ [(k, f k)]).length + ks.length ≤ 1000 := by
      simp only [List.length_append, List.length_cons, List.length_nil]
      simp only [List.length_cons] at hlen
      omega
    show putMany (cachePut m k (f k)) ks f = _
    rw [hstep, ih _ hnd' hdis' hlen']
    simp

/-- C6: starting from an empty cache and inserting 1001 distinct
fingerprints via `put` (insert then cleanup), the cache size after every
`put` never exceeds 1000; at the 1001st insertion the size exceeds the
1000-entry ceiling and the oldest half (the 500 oldest fingerprints, by
insertion order) is evicted, so the final cache holds exactly the 501 most
recently inserted fingerprints, in insertion order. -/
theorem cache_eviction_bound {K V : Type} [DecidableEq K] (ks : List K)
    (f : K → V) (hnd : ks.Nodup) (hlen : ks.length = 1001) :
    (∀ n : Nat, (putMany ([] : List (K × V)) (ks.take n) f).length ≤ 1000) ∧
    (putMany ([] : List (K × V)) ks f).map Prod.fst = ks.drop 500 ∧
    (putMany ([] : List (K × V)) ks f).length = 501 := by
  have htake : ∀ n, n ≤ 1000 →
      putMany ([] : List (K × V)) (ks.take n) f
        = (ks.take n).map (fun k => (k, f k)) := by
    intro n hn
    apply putMany_no_evict
    · exact ((ks.take_sublist n).nodup hnd)
    · intro k _
      rfl
    · simp only [List.length_nil, List.length_take, hlen]
      omega
  obtain ⟨kl, hkl⟩ : ∃ kl, ks.drop 1000 = [kl] := by
    apply List.length_eq_one.mp
    simp [hlen]
  have hsplit : ks.take 1000 ++ [kl] = ks := by
    rw [← hkl, List.take_append_drop]
  have htklen : (ks.take 1000).length = 1000 := by
    simp [hlen]
  have hknot : kl ∉ ks.take 1000 := by
    have hnd' : (ks.take 1000 ++ [kl]).Nodup := hsplit.symm ▸ hnd
    have := (List.nodup_append.mp hnd').2.2
    intro hin
    exact this hin (by simp)
  have hMfst : ((ks.take 1000).map (fun k => (k, f k))).map Prod.fst
      = ks.take 1000 := by
    rw [List.map_map]
    have hid : (Prod.fst ∘ fun k : K => (k, f k)) = id := rfl
    rw [hid, List.map_id]
  have hfind : assocFind ((ks.take 1000).map (fun k => (k, f k))) kl = none := by
    apply assocFind_eq_none_of_notMem
    rw [hMfst]
    exact hknot
  have hlen1001 : (((ks.take 1000).map (fun k => (k, f k))) ++ [(kl, f kl)]).length
      = 1001 := by
    rw [List.length_append, List.length_map, htklen]
    rfl
  have hmain : putMany ([] : List (K × V)) ks f
      = (((ks.take 1000).map (fun k => (k, f k))) ++ [(kl, f kl)]).drop 500 := by
    conv_lhs => rw [← hsplit]
    unfold putMany
    rw [List.foldl_append]
    show cachePut (putMany [] (ks.take 1000) f) kl (f kl) = _
    rw [htake 1000 le_rfl]
    unfold cachePut
    rw [dictInsert_of_find_none _ _ _ hfind]
    unfold cleanupCache
    rw [if_pos]
    · rw [hlen1001]
    · rw [hlen1001]
      norm_num
  have hfst : (putMany ([] : List (K × V)) ks f).map Prod.fst = ks.drop 500 := by
    rw [hmain, List.map_drop, List.map_append, hMfst]
    have : (([(kl, f kl)] : List (K × V)).map Prod.fst) = [kl] := rfl
    rw [this, hsplit]
  have hlen501 : (putMany ([] : List (K × V)) ks f).length = 501 := by
    rw [hmain, List.length_drop, hlen1001]
  refine ⟨?_, hfst, hlen501⟩
  intro n
  rcases le_or_lt n 1000 with hn | hn
  · rw [htake n hn]
    simp only [List.length_map, List.length_take, hlen]
    omega
  · have : ks.take n = ks := by
      apply List.take_of_length_le
      omega
    rw [this, hlen501]
    omega

theorem cache_eviction_bound_witness :
    (List.range 1001).Nodup ∧ (List.range 1001).length = 1001 ∧
    (putMany ([] : List (Nat × Unit)) (List.range 1001) (fun _ => ())).map Prod.fst
      = (List.range 1001).drop 500 ∧
    (putMany ([] : List (Nat × Unit)) (List.range 1001) (fun _ => ())).length = 501 := by
  have h := cache_eviction_bound (K := Nat) (V := Unit) (List.range 1001)
    (fun _ => ()) (List.nodup_range 1001) (by simp)
  exact ⟨List.nodup_range 1001, by simp, h.2.1, h.2.2⟩

/-! ## Claim C8: weighted ensemble voting -/

theorem VoteScores.get_bump (v : VoteScores) (l l' : RiskLevel) (x : ℚ) :
    (v.bump l x).get l' = v.get l' + if l' = l then x else 0 := by
  cases l <;> cases l' <;> simp [VoteScores.bump, VoteScores.get]

theorem voting_foldl_mass (ws : List (String × ℚ)) (preds : List ModelOpinion)
    (v0 : VoteScores) (t0 : ℚ) (ex0 : List String) (l : RiskLevel) :
    (preds.foldl (votingStep ws) (v0, t0, ex0)).1.get l
      = v0.get l + voteMassSpec preds ws l := by
  induction preds generalizing v0 t0 ex0 with
  | nil => simp [voteMassSpec]
  | cons p preds ih =>
    rw [List.foldl_cons]
    have hstep : votingStep ws (v0, t0, ex0) p
        = (v0.bump p.prediction (opinionWeight ws p * p.confidence),
           t0 + p.confidence * opinionWeight ws p,
           ex0 ++ [p.model ++ ": " ++ p.explanation]) := rfl
    rw [hstep, ih, VoteScores.get_bump]
    unfold voteMassSpec
    rw [List.filter_cons]
    by_cases h : p.prediction = l
    · rw [if_pos h.symm, decide_eq_true h, if_pos rfl, List.map_cons, List.sum_cons]
      ring
    · rw [if_neg (fun he => h he.symm), decide_eq_false h,
        if_neg Bool.false_ne_true]
      ring

theorem voting_foldl_conf (ws : List (String × ℚ)) (preds : List ModelOpinion)
    (v0 : VoteScores) (t0 : ℚ) (ex0 : List String) :
    (preds.foldl (votingStep ws) (v0, t0, ex0)).2.1
      = t0 + totalConfSpec preds ws := by
  induction preds generalizing v0 t0 ex0 with
  | nil => simp [totalConfSpec]
  | cons p preds ih =>
    rw [List.foldl_cons]
    have hstep : votingStep ws (v0, t0, ex0) p
        = (v0.bump p.prediction (opinionWeight ws p * p.confidence),
           t0 + p.confidence * opinionWeight ws p,
           ex0 ++ [p.model ++ ": " ++ p.explanation]) := rfl
    rw [hstep, ih]
    unfold totalConfSpec
    simp only [List.map_cons, List.sum_cons]
    ring

theorem argmaxVote_is_max (v : VoteScores) (l : RiskLevel) :
    v.get l ≤ v.get (argmaxVote v) := by
  unfold argmaxVote
  split
  · rename_i h
    cases l
    · exact le_rfl
    · exact h.1
    · exact h.2
  · split
    · rename_i h1 h2
      rw [not_and_or, not_le, not_le] at h1
      cases l
      · rcases h1 with h1 | h1
        · exact le_of_lt h1
        · exact le_of_lt (lt_of_lt_of_le h1 h2)
      · exact le_rfl
      · exact h2
    · rename_i h1 h2
      rw [not_and_or, not_le, not_le] at h1
      rw [not_le] at h2
      cases l
      · rcases h1 with h1 | h1
        · exact le_of_lt (lt_trans h1 h2)
        · exact le_of_lt h1
      · exact le_of_lt h2
      · exact le_rfl

/-- The three concrete opinions of spec scenario 5: source A predicts
Danger with confidence 0.9, B predicts Safe with 0.8, C predicts Warning
with 0.7. -/
def c8Opinions : List ModelOpinion :=
  [⟨"A", RiskLevel.danger, 0.9, "opinion a"⟩,
   ⟨"B", RiskLevel.safe, 0.8, "opinion b"⟩,
   ⟨"C", RiskLevel.warning, 0.7, "opinion c"⟩]

/-- The weight table of spec scenario 5 (keyed by lower-cased source
name): A ↦ 0.4, B ↦ 0.3, C ↦ 0.3. -/
def c8Weights : List (String × ℚ) :=
  [("a", 0.4), ("b", 0.3), ("c", 0.3)]

/-- C8: for every non-empty opinion list the ensemble voter accumulates
`vote_mass[predicted_level] += weight * confidence` per opinion (weight
0.1 for a source missing from the table), returns a level of maximal vote
mass, and returns `confidence = (Σ confidence * weight) / number of
opinions`; on the concrete three opinions (A: Danger 0.9 at weight 0.4,
B: Safe 0.8 at weight 0.3, C: Warning 0.7 at weight 0.3) the vote masses
are Danger 0.36, Safe 0.24, Warning 0.21 and the verdict is Danger. -/
theorem weighted_voting_spec :
    (∀ (preds : List ModelOpinion) (ws : List (String × ℚ)), preds ≠ [] →
      (∀ l, (weightedVoting preds ws).vote_scores.get l = voteMassSpec preds ws l) ∧
      (∀ l, (weightedVoting preds ws).vote_scores.get l
          ≤ (weightedVoting preds ws).vote_scores.get (weightedVoting preds ws).prediction) ∧
      (weightedVoting preds ws).confidence
          = totalConfSpec preds ws / (preds.length : ℚ)) ∧
    (weightedVoting c8Opinions c8Weights).vote_scores
        = ⟨0.24, 0.21, 0.36⟩ ∧
    (weightedVoting c8Opinions c8Weights).prediction = RiskLevel.danger := by
  refine ⟨?_, ?_, ?_⟩
  · intro preds ws _
    refine ⟨?_, ?_, ?_⟩
    · intro l
      show (preds.foldl (votingStep ws) (⟨0, 0, 0⟩, 0, [])).1.get l = _
      rw [voting_foldl_mass]
      cases l <;> simp [VoteScores.get]
    · intro l
      exact argmaxVote_is_max _ l
    · show (preds.foldl (votingStep ws) (⟨0, 0, 0⟩, 0, [])).2.1 / _ = _
      rw [voting_foldl_conf]
      ring
  · with_unfolding_all decide
  · with_unfolding_all decide

theorem weighted_voting_spec_witness :
    c8Opinions ≠ [] ∧
    (weightedVoting c8Opinions c8Weights).confidence
      = totalConfSpec c8Opinions c8Weights / (c8Opinions.length : ℚ) :=
  ⟨by decide, (weighted_voting_spec.1 c8Opinions c8Weights (by decide)).2.2⟩

end FactSafe
